import Mathlib

/-!
Shallow embedding of the Fitsemeet session coordinator.

The model layer embeds models/roomModel.js: the Room class (participant set,
bounded message history, active flag), the module-level rooms and participants
registries, and the roomUtils operations (createRoom, getRoom, roomExists,
cleanupEmptyRooms).

The server layer embeds the socket handlers of server.js: the join-room
handler (session eviction, identity binding, get-or-create, addParticipant,
broadcasts), the private-message handler, the disconnect handler with its
5-second grace-period continuation, and the firing of that continuation.

JavaScript Map objects are embedded as association lists with JS semantics
(set overwrites in place, get returns the first binding, delete removes the
binding; JS maps never hold two bindings for one key, so removing every
binding of the key is the same operation); JS Set objects are embedded as
duplicate-free lists in insertion order. Wall-clock instants and Date.now
values are abstract Nat parameters; message ids (Date.now() +
Math.random()) are abstract Nat parameters supplied by the environment.
-/

namespace Fitsemeet

/-! ## JS Map and Set primitives -/

variable {K V : Type} [DecidableEq K]

/-- Embedding of JS Map.prototype.set: overwrite in place or append. -/
def mapSet (m : List (K × V)) (k : K) (v : V) : List (K × V) :=
  match m with
  | [] => [(k, v)]
  | (k', v') :: rest => if k' = k then (k, v) :: rest else (k', v') :: mapSet rest k v

/-- Embedding of JS Map.prototype.get (undefined becomes none). -/
def mapGet (m : List (K × V)) (k : K) : Option V :=
  match m with
  | [] => none
  | (k', v') :: rest => if k' = k then some v' else mapGet rest k

/-- Embedding of JS Map.prototype.delete; a JS map holds at most one binding
per key, so deleting every binding of the key is the same operation. -/
def mapDelete (m : List (K × V)) (k : K) : List (K × V) :=
  m.filter (fun p => p.1 ≠ k)

/-- Embedding of JS Map.prototype.has. -/
def mapHas (m : List (K × V)) (k : K) : Bool :=
  (mapGet m k).isSome

/-- Embedding of JS Set.prototype.add on a duplicate-free insertion-ordered list. -/
def setAdd (s : List K) (x : K) : List K :=
  if x ∈ s then s else s ++ [x]

/-- Embedding of JS Set.prototype.delete. -/
def setDelete (s : List K) (x : K) : List K :=
  s.filter (fun y => y ≠ x)

theorem mapGet_mapSet_self (m : List (K × V)) (k : K) (v : V) :
    mapGet (mapSet m k v) k = some v := by
  induction m with
  | nil => simp [mapSet, mapGet]
  | cons hd tl ih =>
    obtain ⟨k', v'⟩ := hd
    by_cases h : k' = k <;> simp [mapSet, mapGet, h, ih]

theorem mapGet_mapSet_ne (m : List (K × V)) (k k' : K) (v : V) (h : k ≠ k') :
    mapGet (mapSet m k v) k' = mapGet m k' := by
  induction m with
  | nil => simp [mapSet, mapGet, h]
  | cons hd tl ih =>
    obtain ⟨k0, v0⟩ := hd
    by_cases h0 : k0 = k
    · subst h0
      simp [mapSet, mapGet, h]
    · by_cases h1 : k0 = k' <;> simp [mapSet, mapGet, h0, h1, ih, Ne.symm h]

theorem mapGet_mapDelete_self (m : List (K × V)) (k : K) :
    mapGet (mapDelete m k) k = none := by
  induction m with
  | nil => simp [mapDelete, mapGet]
  | cons hd tl ih =>
    obtain ⟨k0, v0⟩ := hd
    by_cases h0 : k0 = k
    · simpa [mapDelete, h0] using ih
    · simpa [mapDelete, mapGet, h0] using ih

theorem mapGet_mapDelete_ne (m : List (K × V)) (k k' : K) (h : k' ≠ k) :
    mapGet (mapDelete m k) k' = mapGet m k' := by
  induction m with
  | nil => simp [mapDelete, mapGet]
  | cons hd tl ih =>
    obtain ⟨k0, v0⟩ := hd
    by_cases h0 : k0 = k
    · subst h0
      simpa [mapDelete, mapGet, List.filter_cons, Ne.symm h] using ih
    · by_cases h1 : k0 = k'
      · subst h1
        simp [mapDelete, mapGet, List.filter_cons, h0]
      · simpa [mapDelete, mapGet, List.filter_cons, h0, h1] using ih

theorem mem_setAdd_self (s : List K) (x : K) : x ∈ setAdd s x := by
  by_cases h : x ∈ s <;> simp [setAdd, h]

theorem setDelete_not_mem (s : List K) (x : K) : x ∉ setDelete s x := by
  simp [setDelete]

theorem setDelete_eq_self_of_not_mem (s : List K) (x : K) (h : x ∉ s) :
    setDelete s x = s := by
  apply List.filter_eq_self.mpr
  intro a ha
  simp only [ne_eq, decide_not]
  by_cases hax : a = x
  · exact absurd (hax ▸ ha) h
  · simp [hax]

theorem length_setAdd_le (s : List K) (x : K) :
    (setAdd s x).length ≤ s.length + 1 := by
  by_cases h : x ∈ s <;> simp [setAdd, h]

theorem length_setDelete_le (s : List K) (x : K) :
    (setDelete s x).length ≤ s.length :=
  List.length_filter_le _ _

/-! ## Uppercase normalization

Embedding of JS String.prototype.toUpperCase restricted to the basic latin
range, built on the character-level Char.toUpper of the Lean core library. -/

/-- Embedding of JS String.prototype.toUpperCase (basic latin range). -/
def jsToUpper (s : String) : String :=
  ⟨s.data.map Char.toUpper⟩

theorem char_toNat_ofNat {n : Nat} (h : n < 55296) : (Char.ofNat n).toNat = n := by
  rw [Char.ofNat, dif_pos (Or.inl h)]
  rfl

theorem char_toUpper_idem (c : Char) : c.toUpper.toUpper = c.toUpper := by
  unfold Char.toUpper
  by_cases h : c.toNat ≥ 97 ∧ c.toNat ≤ 122
  · rw [if_pos h]
    have h32 : (Char.ofNat (c.toNat - 32)).toNat = c.toNat - 32 :=
      char_toNat_ofNat (by omega)
    rw [if_neg (by rw [h32]; omega)]
  · rw [if_neg h, if_neg h]

theorem jsToUpper_idem (s : String) : jsToUpper (jsToUpper s) = jsToUpper s := by
  simp only [jsToUpper, List.map_map]
  congr 1
  apply List.map_congr_left
  intro c _
  exact char_toUpper_idem c

/-! ## Room model (models/roomModel.js) -/

/-- Message record built by Room.addMessage. The id (Date.now() +
Math.random()) and the ISO timestamp are abstract environment inputs. -/
structure Message where
  id : Nat
  message : String
  senderEmail : String
  timestamp : Nat
deriving DecidableEq

/-- Entry of the module-level participants map, keyed by socket id. -/
structure ParticipantEntry where
  userEmail : String
  roomCode : String
  joinedAt : Nat
deriving DecidableEq

/-- Room class state. participants is the Set of member socket ids. -/
structure Room where
  id : String
  code : String
  participants : List String
  createdAt : Nat
  messages : List Message
  isActive : Bool
  maxParticipants : Nat
deriving DecidableEq

/-- The module-level participants map: socket id to ParticipantEntry. -/
abbrev PMap := List (String × ParticipantEntry)

/-- The module-level rooms map: uppercase code to Room. -/
abbrev RoomsMap := List (String × Room)

/-- Room constructor: new Room(code). -/
def Room.new (code : String) (now : Nat) : Room :=
  { id := code
    code := jsToUpper code
    participants := []
    createdAt := now
    messages := []
    isActive := true
    maxParticipants := 50 }

/-- Room.prototype.addParticipant(socketId, userEmail). Throws "Room is
full" when the set already holds maxParticipants members; a throw leaves
the room and the participants map exactly as they were. On success it adds
the socket id to the member set and records a ParticipantEntry keyed by the
socket id in the module-level participants map. -/
def Room.addParticipant (r : Room) (ps : PMap) (socketId userEmail : String)
    (now : Nat) : Except String Bool × Room × PMap :=
  if r.maxParticipants ≤ r.participants.length then
    (.error "Room is full", r, ps)
  else
    (.ok true,
     { r with participants := setAdd r.participants socketId },
     mapSet ps socketId { userEmail := userEmail, roomCode := r.code, joinedAt := now })

/-- Room.prototype.removeParticipant(socketId): deletes the socket id from
the member set and from the module-level participants map, marks the room
inactive when the resulting set is empty, and returns the resulting size. -/
def Room.removeParticipant (r : Room) (ps : PMap) (socketId : String) :
    Nat × Room × PMap :=
  let parts := setDelete r.participants socketId
  (parts.length,
   { r with participants := parts
            isActive := if parts.length = 0 then false else r.isActive },
   mapDelete ps socketId)

/-- Room.prototype.addMessage(message, senderEmail): appends the record and
keeps only the last 100 messages (slice of the last 100 when the length
exceeds 100). -/
def Room.addMessage (r : Room) (message senderEmail : String)
    (msgId ts : Nat) : Room × Message :=
  let messageObj : Message :=
    { id := msgId, message := message, senderEmail := senderEmail, timestamp := ts }
  let msgs := r.messages ++ [messageObj]
  let msgs := if 100 < msgs.length then msgs.drop (msgs.length - 100) else msgs
  ({ r with messages := msgs }, messageObj)

/-! ## roomUtils (models/roomModel.js) -/

/-- roomUtils.createRoom(code): returns the room already registered under the
uppercased code, or registers and returns a fresh Room. -/
def createRoom (rs : RoomsMap) (code : String) (now : Nat) : RoomsMap × Room :=
  let upperCode := jsToUpper code
  match mapGet rs upperCode with
  | some r => (rs, r)
  | none =>
    let room := Room.new upperCode now
    (mapSet rs upperCode room, room)

/-- roomUtils.getRoom(code). -/
def getRoom (rs : RoomsMap) (code : String) : Option Room :=
  mapGet rs (jsToUpper code)

/-- roomUtils.roomExists(code). -/
def roomExists (rs : RoomsMap) (code : String) : Bool :=
  mapHas rs (jsToUpper code)

/-- roomUtils.cleanupEmptyRooms: the Janitor sweep; deletes every room whose
member set is empty and whose active flag is false. -/
def cleanupEmptyRooms (rs : RoomsMap) : RoomsMap :=
  rs.filter (fun p => !(p.2.participants.length = 0 && p.2.isActive = false))

/-! ## Server state and events (server.js) -/

/-- Value stored in the socketToUser map. -/
structure UserBinding where
  userEmail : String
  roomCode : String
deriving DecidableEq

/-- A scheduled grace-period continuation: the setTimeout closure created by
the disconnect handler, capturing the socket id, the identity and the room
code; it fires 5000 ms after the disconnect. -/
structure TimerRec where
  sid : String
  userEmail : String
  roomCode : String
deriving DecidableEq

/-- Roster entry sent in room-participants and participants-update events. -/
structure PartInfo where
  socketId : String
  userEmail : String
deriving DecidableEq

/-- Private message record built by the private-message handler. -/
structure PrivateMsg where
  id : Nat
  message : String
  senderEmail : String
  recipientEmail : String
  timestamp : Nat
  type : String
deriving DecidableEq

/-- Outbound event payloads of the handlers modelled here. -/
inductive Event where
  | roomParticipants (ps : List PartInfo)
  | userJoined (socketId userEmail : String)
  | participantsUpdate (count : Nat) (ps : List PartInfo)
  | userLeft (socketId userEmail : String)
  | privateMessage (m : PrivateMsg)
  | errorMsg (message : String)
deriving DecidableEq

/-- Observable outbound action of a handler. emitToSocket is socket.emit on
the named socket; emitToChannelExcept channel sid is socket.to(channel).emit
fired from sid (delivered to every subscriber of the channel except sid);
emitToRoom is io.to(channel).emit; disconnectSocket is a forced
socket.disconnect(true). -/
inductive Action where
  | disconnectSocket (sid : String)
  | emitToSocket (sid : String) (ev : Event)
  | emitToChannelExcept (channel : String) (sid : String) (ev : Event)
  | emitToRoom (channel : String) (ev : Event)
deriving DecidableEq

/-- Server-side mutable state of server.js: the two registries of the room
model plus the three identity maps, the set of live socket ids
(io.sockets.sockets), the channel subscriptions (socket.join), and the
pending grace-period continuations. -/
structure ServerState where
  rooms : RoomsMap
  participants : PMap
  socketToUser : List (String × UserBinding)
  userToSocket : List (String × String)
  userLastActivity : List (String × Nat)
  liveSockets : List String
  channels : List (String × List String)
  timers : List TimerRec
deriving DecidableEq

/-- Roster entry for a socket id: participants.get(id) with the
"Unknown" fallback for a missing entry or falsy email. -/
def participantInfo (ps : PMap) (sid : String) : PartInfo :=
  { socketId := sid
    userEmail :=
      match mapGet ps sid with
      | some p => if p.userEmail = "" then "Unknown" else p.userEmail
      | none => "Unknown" }

/-- Roster broadcast in participants-update: every member socket id of the
room mapped through participantInfo. -/
def rosterOf (room : Room) (ps : PMap) : List PartInfo :=
  room.participants.map (participantInfo ps)

/-- socket.join(channel). -/
def channelJoin (chs : List (String × List String)) (channel sid : String) :
    List (String × List String) :=
  match mapGet chs channel with
  | some mem => mapSet chs channel (setAdd mem sid)
  | none => mapSet chs channel [sid]

/-- Removal of a socket from every channel on transport disconnect. -/
def channelsRemoveSocket (chs : List (String × List String)) (sid : String) :
    List (String × List String) :=
  chs.map (fun p => (p.1, setDelete p.2 sid))

/-- The disconnect handler of server.js. The transport removes the socket
from the live set and its channels; the listener then reads socketToUser and,
when the socket was bound and its room is registered, schedules the 5-second
grace-period continuation. No mapping is erased here: erasure happens only
when the continuation fires and the identity still resolves to this socket. -/
def onDisconnect (st : ServerState) (sid : String) : ServerState :=
  let st1 := { st with liveSockets := setDelete st.liveSockets sid
                       channels := channelsRemoveSocket st.channels sid }
  match mapGet st1.socketToUser sid with
  | some ub =>
    match getRoom st1.rooms ub.roomCode with
    | some _ => { st1 with timers := st1.timers ++ [⟨sid, ub.userEmail, ub.roomCode⟩] }
    | none => st1
  | none => st1

/-- Removal of one fired continuation from the pending list. -/
def removeTimer (ts : List TimerRec) (t : TimerRec) : List TimerRec :=
  match ts with
  | [] => []
  | t' :: rest => if t' = t then rest else t' :: removeTimer rest t

/-- Firing of a grace-period continuation (the body of the setTimeout in the
disconnect handler). It re-resolves the identity: only when userToSocket
still maps the identity to the original socket id does it finalize removal
(removeParticipant, user-left broadcast, participants-update broadcast, and
erasure of socketToUser, userToSocket and userLastActivity). The room is
looked up by its code: a scheduled continuation always finds the room it
captured, because the room still holds the disconnected member and so is
never swept before the continuation fires. -/
def fireDisconnectTimer (st : ServerState) (t : TimerRec) :
    ServerState × List Action :=
  let st0 := { st with timers := removeTimer st.timers t }
  if mapGet st0.userToSocket t.userEmail = some t.sid then
    match mapGet st0.rooms (jsToUpper t.roomCode) with
    | some room =>
      let removed := Room.removeParticipant room st0.participants t.sid
      let st1 := { st0 with
        rooms := mapSet st0.rooms (jsToUpper t.roomCode) removed.2.1
        participants := removed.2.2
        socketToUser := mapDelete st0.socketToUser t.sid
        userToSocket := mapDelete st0.userToSocket t.userEmail
        userLastActivity := mapDelete st0.userLastActivity t.userEmail }
      (st1,
       [Action.emitToChannelExcept t.roomCode t.sid (.userLeft t.sid t.userEmail),
        Action.emitToRoom t.roomCode
          (.participantsUpdate removed.1 (rosterOf removed.2.1 removed.2.2))])
    | none => (st0, [])
  else
    (st0, [])

/-- Session eviction at the top of the join-room handler: when the identity
already maps to a different socket id, that socket is forcibly disconnected
if still live (running its disconnect listener synchronously) and both of its
mapping entries are erased, before any new binding is installed. -/
def evictExisting (st : ServerState) (sid userEmail : String) :
    ServerState × List Action :=
  match mapGet st.userToSocket userEmail with
  | some existingSid =>
    if existingSid = sid then (st, [])
    else
      let stepped :=
        if existingSid ∈ st.liveSockets then
          (onDisconnect st existingSid, [Action.disconnectSocket existingSid])
        else (st, ([] : List Action))
      ({ stepped.1 with
          socketToUser := mapDelete stepped.1.socketToUser existingSid
          userToSocket := mapDelete stepped.1.userToSocket userEmail },
       stepped.2)
  | none => (st, [])

/-- Rest of the join-room handler after eviction: subscribe the socket to the
room channel, install both identity mappings and the activity timestamp,
get-or-create the room, then addParticipant. A capacity throw is caught and
reported as an error event to the joining socket only, leaving the state as
it was at the throw (channel subscription and bindings already installed).
On success the handler emits the delayed room-participants list to the
joiner, the delayed user-joined notice to the rest of the channel, and the
immediate participants-update broadcast to the whole room. -/
def joinRoomCore (st : ServerState) (sid roomCode userEmail : String)
    (now : Nat) : ServerState × List Action :=
  let stJoined := { st with channels := channelJoin st.channels roomCode sid }
  let stBound := { stJoined with
    socketToUser := mapSet stJoined.socketToUser sid ⟨userEmail, roomCode⟩
    userToSocket := mapSet stJoined.userToSocket userEmail sid
    userLastActivity := mapSet stJoined.userLastActivity userEmail now }
  let key := jsToUpper roomCode
  let got :=
    match mapGet stBound.rooms key with
    | some r => (stBound.rooms, r)
    | none => createRoom stBound.rooms roomCode now
  let stRoom := { stBound with rooms := got.1 }
  let added := Room.addParticipant got.2 stRoom.participants sid userEmail now
  match added.1 with
  | .error msg => (stRoom, [Action.emitToSocket sid (.errorMsg msg)])
  | .ok _ =>
    let room2 := added.2.1
    let ps2 := added.2.2
    let stFinal := { stRoom with
      rooms := mapSet stRoom.rooms key room2
      participants := ps2 }
    let others :=
      (room2.participants.filter (fun pid => pid ≠ sid)).map (participantInfo ps2)
    (stFinal,
     [Action.emitToSocket sid (.roomParticipants others),
      Action.emitToChannelExcept roomCode sid (.userJoined sid userEmail),
      Action.emitToRoom roomCode
        (.participantsUpdate room2.participants.length (rosterOf room2 ps2))])

/-- The join-room handler of server.js: eviction of any existing session for
the identity, then binding and room membership. -/
def joinRoom (st : ServerState) (sid roomCode userEmail : String) (now : Nat) :
    ServerState × List Action :=
  let ev := evictExisting st sid userEmail
  let core := joinRoomCore ev.1 sid roomCode userEmail now
  (core.1, ev.2 ++ core.2)

/-- The private-message handler of server.js. The roomCode field of the
inbound payload is unused by the handler. When the recipient identity has a
bound socket, the constructed private message is delivered to that socket and
echoed back to the sender; otherwise the sender alone receives the error
event for an offline recipient. -/
def onPrivateMessage (st : ServerState) (sid message senderEmail recipientEmail : String)
    (msgId ts : Nat) : ServerState × List Action :=
  match mapGet st.userToSocket recipientEmail with
  | some recipientSid =>
    let messageObj : PrivateMsg :=
      { id := msgId, message := message, senderEmail := senderEmail,
        recipientEmail := recipientEmail, timestamp := ts, type := "private" }
    (st, [Action.emitToChannelExcept recipientSid sid (.privateMessage messageObj),
          Action.emitToSocket sid (.privateMessage messageObj)])
  | none => (st, [Action.emitToSocket sid (.errorMsg "Recipient not found")])

/-! ## Registry operation traces

Every mutation the program ever performs on the rooms and participants
registries goes through one of these operations: creation (socket join or
the HTTP join route), addParticipant and removeParticipant (socket
handlers), addMessage (chat handler) and the periodic janitor sweep. -/

/-- The two module-level registries of models/roomModel.js. -/
structure ModelState where
  rooms : RoomsMap
  participants : PMap
deriving DecidableEq

/-- One registry operation, as invoked by the callers in server.js. -/
inductive ROp where
  | create (code : String) (now : Nat)
  | addP (code sid email : String) (now : Nat)
  | removeP (code sid : String)
  | addMsg (code message senderEmail : String) (msgId ts : Nat)
  | cleanup
deriving DecidableEq

/-- Effect of one registry operation. The membership and message operations
act on the room registered under the uppercased code and are no-ops when no
such room exists; a capacity throw from addParticipant leaves the state
unchanged. -/
def applyROp (ms : ModelState) (op : ROp) : ModelState :=
  match op with
  | .create code now => { ms with rooms := (createRoom ms.rooms code now).1 }
  | .addP code sid email now =>
    match getRoom ms.rooms code with
    | some room =>
      let added := Room.addParticipant room ms.participants sid email now
      match added.1 with
      | .error _ => ms
      | .ok _ =>
        { rooms := mapSet ms.rooms (jsToUpper code) added.2.1
          participants := added.2.2 }
    | none => ms
  | .removeP code sid =>
    match getRoom ms.rooms code with
    | some room =>
      let removed := Room.removeParticipant room ms.participants sid
      { rooms := mapSet ms.rooms (jsToUpper code) removed.2.1
        participants := removed.2.2 }
    | none => ms
  | .addMsg code message senderEmail msgId ts =>
    match getRoom ms.rooms code with
    | some room =>
      { ms with
        rooms := mapSet ms.rooms (jsToUpper code)
          (Room.addMessage room message senderEmail msgId ts).1 }
    | none => ms
  | .cleanup => { ms with rooms := cleanupEmptyRooms ms.rooms }

/-- Effect of a sequence of registry operations. -/
def applyROps (ms : ModelState) (ops : List ROp) : ModelState :=
  ops.foldl applyROp ms

/-- Whether an operation is a removeParticipant on the room registered under
the given uppercase key. -/
def ROp.removesFrom (op : ROp) (key : String) : Bool :=
  match op with
  | .removeP code _ => decide (jsToUpper code = key)
  | _ => false

/-! ## Auxiliary lemmas -/

theorem mapGet_eq_none_iff {m : List (K × V)} {k : K} :
    mapGet m k = none ↔ ∀ p ∈ m, p.1 ≠ k := by
  induction m with
  | nil => simp [mapGet]
  | cons hd tl ih =>
    obtain ⟨k0, v0⟩ := hd
    by_cases h0 : k0 = k <;> simp [mapGet, h0, ih]

theorem mapDelete_eq_self_of_get_none {m : List (K × V)} {k : K}
    (h : mapGet m k = none) : mapDelete m k = m := by
  apply List.filter_eq_self.mpr
  intro p hp
  have := mapGet_eq_none_iff.mp h p hp
  simpa using this

theorem mapGet_filter {p : K × V → Bool} {m : List (K × V)} {k : K} {v : V}
    (h : mapGet m k = some v) (hp : p (k, v) = true) :
    mapGet (m.filter p) k = some v := by
  induction m with
  | nil => simp [mapGet] at h
  | cons hd tl ih =>
    obtain ⟨k0, v0⟩ := hd
    by_cases h0 : k0 = k
    · subst h0
      have hv : v0 = v := by simpa [mapGet] using h
      subst hv
      simp [List.filter_cons, hp, mapGet]
    · simp only [mapGet, if_neg h0] at h
      by_cases hkeep : p (k0, v0) = true
      · simpa [List.filter_cons, hkeep, mapGet, h0] using ih h
      · simp only [Bool.not_eq_true] at hkeep
        simpa [List.filter_cons, hkeep] using ih h

theorem addParticipant_isActive (r : Room) (ps : PMap) (sid email : String)
    (now : Nat) : (r.addParticipant ps sid email now).2.1.isActive = r.isActive := by
  unfold Room.addParticipant
  by_cases h : r.maxParticipants ≤ r.participants.length <;> simp [h]

theorem addMessage_isActive (r : Room) (msg sender : String) (mid ts : Nat) :
    (r.addMessage msg sender mid ts).1.isActive = r.isActive := rfl

/-! ## Claim theorems -/

/-- C1: addParticipant on a Room whose member set has size equal to the
capacity fails with the Room is full error and leaves both the member set
and the participants registry exactly as they were; on a Room below
capacity it succeeds, inserts the socket id into the member set and records
a ParticipantEntry keyed by that socket id. Every Room the program builds
has capacity 50. -/
theorem claim1_addParticipant_capacity (r : Room) (ps : PMap)
    (sid email : String) (now : Nat) :
    (r.participants.length = r.maxParticipants →
      r.addParticipant ps sid email now = (.error "Room is full", r, ps)) ∧
    (r.participants.length < r.maxParticipants →
      (r.addParticipant ps sid email now).1 = .ok true ∧
      (r.addParticipant ps sid email now).2.1 =
        { r with participants := setAdd r.participants sid } ∧
      sid ∈ (r.addParticipant ps sid email now).2.1.participants ∧
      mapGet (r.addParticipant ps sid email now).2.2 sid =
        some { userEmail := email, roomCode := r.code, joinedAt := now }) ∧
    (∀ (c : String) (n : Nat), (Room.new c n).maxParticipants = 50) := by
  refine ⟨fun h => ?_, fun h => ?_, fun c n => rfl⟩
  · simp [Room.addParticipant, h]
  · have hn : ¬ r.maxParticipants ≤ r.participants.length := by omega
    simp [Room.addParticipant, hn, mem_setAdd_self, mapGet_mapSet_self]

/-- Concrete room at capacity: 50 distinct member socket ids. -/
def fullRoom : Room :=
  { Room.new "FULL" 0 with participants := (List.range 50).map toString }

theorem claim1_witness :
    (fullRoom.participants.length = fullRoom.maxParticipants ∧
      fullRoom.addParticipant [] "x" "u" 1 = (.error "Room is full", fullRoom, [])) ∧
    ((Room.new "A" 0).participants.length < (Room.new "A" 0).maxParticipants ∧
      ((Room.new "A" 0).addParticipant [] "x" "u" 1).1 = .ok true) :=
  ⟨⟨by decide, (claim1_addParticipant_capacity fullRoom [] "x" "u" 1).1 (by decide)⟩,
   ⟨by decide, (((claim1_addParticipant_capacity (Room.new "A" 0) [] "x" "u" 1).2.1)
      (by decide)).1⟩⟩

/-- C5: after any addMessage the message history holds at most 100 entries,
and appending to a history already holding exactly 100 drops exactly the
oldest entry and appends the new message at the end. -/
theorem claim5_addMessage_bound (r : Room) (msg sender : String) (mid ts : Nat) :
    (r.addMessage msg sender mid ts).1.messages.length ≤ 100 ∧
    (r.messages.length = 100 →
      (r.addMessage msg sender mid ts).1.messages
        = r.messages.tail ++
            [{ id := mid, message := msg, senderEmail := sender, timestamp := ts }]) := by
  constructor
  · unfold Room.addMessage
    by_cases h : 100 < (r.messages ++ [(⟨mid, msg, sender, ts⟩ : Message)]).length
    · simp only [if_pos h]
      simp only [List.length_drop]
      omega
    · simp only [if_neg h]
      simp only [List.length_append, List.length_singleton] at h ⊢
      omega
  · intro h100
    unfold Room.addMessage
    dsimp only
    have hlen : (r.messages ++
        [({ id := mid, message := msg, senderEmail := sender,
            timestamp := ts } : Message)]).length = 101 := by
      simp [h100]
    rw [hlen, if_pos (by omega)]
    have h1 : 101 - 100 = 1 := rfl
    rw [h1, List.drop_append_of_le_length (by omega), List.drop_one]

/-- Concrete room with a history of exactly 100 messages. -/
def room100 : Room :=
  { Room.new "HIST" 0 with
      messages := (List.range 100).map (fun i => ⟨i, "m", "u", 0⟩) }

theorem claim5_witness :
    room100.messages.length = 100 ∧
    (room100.addMessage "hello" "u" 500 600).1.messages
      = room100.messages.tail ++ [⟨500, "hello", "u", 600⟩] :=
  ⟨by decide, (claim5_addMessage_bound room100 "hello" "u" 500 600).2 (by decide)⟩

/-- C6: createRoom is idempotent: a second createRoom with a code equal up
to letter case returns the same registry and the same Room (and getRoom
finds that Room), so one code never yields two Rooms; a freshly created
Room stores the uppercased code, a fixed point of uppercasing. -/
theorem claim6_createRoom_idempotent (rs : RoomsMap) (c1 c2 : String)
    (n1 n2 : Nat) (h : jsToUpper c1 = jsToUpper c2) :
    createRoom (createRoom rs c1 n1).1 c2 n2 = createRoom rs c1 n1 ∧
    getRoom (createRoom rs c1 n1).1 c2 = some (createRoom rs c1 n1).2 ∧
    (mapGet rs (jsToUpper c1) = none →
      (createRoom rs c1 n1).2.code = jsToUpper c1 ∧
      jsToUpper (createRoom rs c1 n1).2.code = (createRoom rs c1 n1).2.code) := by
  cases hm : mapGet rs (jsToUpper c1) with
  | some r =>
    have h2 : mapGet rs (jsToUpper c2) = some r := h ▸ hm
    refine ⟨?_, ?_, fun hnone => by simp [hm] at hnone⟩
    · simp [createRoom, hm, h2]
    · simp [createRoom, getRoom, hm, h2]
  | none =>
    have hself : mapGet (mapSet rs (jsToUpper c1) (Room.new (jsToUpper c1) n1))
        (jsToUpper c2) = some (Room.new (jsToUpper c1) n1) := by
      rw [← h]; exact mapGet_mapSet_self _ _ _
    refine ⟨?_, ?_, fun _ => ?_⟩
    · simp [createRoom, hm, hself]
    · simp [createRoom, getRoom, hm, hself]
    · simp [createRoom, hm, Room.new, jsToUpper_idem]

theorem claim6_witness :
    jsToUpper "ab" = jsToUpper "aB" ∧
    mapGet ([] : RoomsMap) (jsToUpper "ab") = none ∧
    createRoom (createRoom [] "ab" 3).1 "aB" 7 = createRoom [] "ab" 3 ∧
    (createRoom ([] : RoomsMap) "ab" 3).2.code = jsToUpper "ab" :=
  ⟨by decide, by decide,
   (claim6_createRoom_idempotent [] "ab" "aB" 3 7 (by decide)).1,
   ((claim6_createRoom_idempotent [] "ab" "aB" 3 7 (by decide)).2.2 (by decide)).1⟩

/-- C7: a private message to an identity with no bound socket produces
exactly one action, the error event to the sender (the RecipientOffline
failure, rendered as the Recipient not found message), with no delivery, no
echo and no state change; with a bound recipient the constructed private
message, carrying the server-assigned id and timestamp, is delivered to the
recipient socket and echoed back to the sender, again with no state change. -/
theorem claim7_private_message (st : ServerState)
    (sid msg sender recipient : String) (mid ts : Nat) :
    (mapGet st.userToSocket recipient = none →
      onPrivateMessage st sid msg sender recipient mid ts
        = (st, [Action.emitToSocket sid (.errorMsg "Recipient not found")])) ∧
    (∀ rsid, mapGet st.userToSocket recipient = some rsid →
      onPrivateMessage st sid msg sender recipient mid ts
        = (st,
           [Action.emitToChannelExcept rsid sid
              (.privateMessage ⟨mid, msg, sender, recipient, ts, "private"⟩),
            Action.emitToSocket sid
              (.privateMessage ⟨mid, msg, sender, recipient, ts, "private"⟩)])) := by
  constructor
  · intro h
    simp [onPrivateMessage, h]
  · intro rsid h
    simp [onPrivateMessage, h]

/-- Concrete server state with exactly one bound identity. -/
def oneUserState : ServerState :=
  { rooms := [], participants := [],
    socketToUser := [("s1", ⟨"b@x.com", "RC"⟩)],
    userToSocket := [("b@x.com", "s1")],
    userLastActivity := [], liveSockets := ["s1", "s2"],
    channels := [], timers := [] }

theorem claim7_witness :
    (mapGet oneUserState.userToSocket "c@x.com" = none ∧
      onPrivateMessage oneUserState "s2" "hi" "a@x.com" "c@x.com" 9 10
        = (oneUserState,
           [Action.emitToSocket "s2" (.errorMsg "Recipient not found")])) ∧
    (mapGet oneUserState.userToSocket "b@x.com" = some "s1" ∧
      onPrivateMessage oneUserState "s2" "hi" "a@x.com" "b@x.com" 9 10
        = (oneUserState,
           [Action.emitToChannelExcept "s1" "s2"
              (.privateMessage ⟨9, "hi", "a@x.com", "b@x.com", 10, "private"⟩),
            Action.emitToSocket "s2"
              (.privateMessage ⟨9, "hi", "a@x.com", "b@x.com", 10, "private"⟩)])) :=
  ⟨⟨by decide,
    (claim7_private_message oneUserState "s2" "hi" "a@x.com" "c@x.com" 9 10).1
      (by decide)⟩,
   ⟨by decide,
    (claim7_private_message oneUserState "s2" "hi" "a@x.com" "b@x.com" 9 10).2
      "s1" (by decide)⟩⟩

/-- C8 counterexample: removing an absent socket id from a fresh (empty,
active) Room returns the current member count 0 but does change state: the
active flag is forced to false, so the removal of a non-member is not always
a no-op. -/
theorem claim8_counterexample :
    "x" ∉ (Room.new "A" 0).participants ∧
    ((Room.new "A" 0).removeParticipant [] "x").1
      = (Room.new "A" 0).participants.length ∧
    ((Room.new "A" 0).removeParticipant [] "x").2.1 ≠ Room.new "A" 0 := by
  decide

/-- C8 amended: removing a socket id that is neither a member nor a key of
the participants registry is a no-op returning the current member count,
provided the member set is nonempty; on an already-empty member set the
removal still returns 0 but additionally forces the active flag to false;
and whenever a removal leaves the member set empty the active flag is false
and the returned count is 0. -/
theorem claim8_remove_idempotent (r : Room) (ps : PMap) (sid : String) :
    (sid ∉ r.participants → mapGet ps sid = none → r.participants ≠ [] →
      r.removeParticipant ps sid = (r.participants.length, r, ps)) ∧
    (r.participants = [] →
      r.removeParticipant ps sid
        = (0, { r with isActive := false }, mapDelete ps sid)) ∧
    ((r.removeParticipant ps sid).2.1.participants = [] →
      (r.removeParticipant ps sid).2.1.isActive = false ∧
      (r.removeParticipant ps sid).1 = 0) := by
  refine ⟨fun h1 h2 h3 => ?_, fun hemp => ?_, fun hres => ?_⟩
  · have hs : setDelete r.participants sid = r.participants :=
      setDelete_eq_self_of_not_mem _ _ h1
    have hp : mapDelete ps sid = ps := mapDelete_eq_self_of_get_none h2
    have hl : r.participants.length ≠ 0 := by
      intro hc
      exact h3 (List.length_eq_zero.mp hc)
    simp [Room.removeParticipant, hs, hp, hl]
  · simp [Room.removeParticipant, hemp, setDelete]
  · have hl : (setDelete r.participants sid).length = 0 := by
      have : (r.removeParticipant ps sid).2.1.participants
          = setDelete r.participants sid := rfl
      rw [this] at hres
      simp [hres]
    refine ⟨?_, ?_⟩ <;> simp [Room.removeParticipant, hl]

/-- Concrete room with one member, matching the participants registry. -/
def roomOne : Room := { Room.new "B" 0 with participants := ["a"] }

theorem claim8_witness :
    ("x" ∉ roomOne.participants ∧ roomOne.participants ≠ [] ∧
      roomOne.removeParticipant [("a", ⟨"u", "B", 0⟩)] "x"
        = (1, roomOne, [("a", ⟨"u", "B", 0⟩)])) ∧
    ((Room.new "C" 0).removeParticipant [] "x"
        = (0, { Room.new "C" 0 with isActive := false }, [])) ∧
    ((roomOne.removeParticipant [("a", ⟨"u", "B", 0⟩)] "a").2.1.isActive = false) :=
  ⟨⟨by decide, by decide,
    (claim8_remove_idempotent roomOne [("a", ⟨"u", "B", 0⟩)] "x").1
      (by decide) (by decide) (by decide)⟩,
   (claim8_remove_idempotent (Room.new "C" 0) [] "x").2.1 (by decide),
   ((claim8_remove_idempotent roomOne [("a", ⟨"u", "B", 0⟩)] "a").2.2
      (by decide)).1⟩

/-- Room state after joining, emptying out, and rejoining room A. -/
def c9AfterJoin : Room × PMap := ((Room.new "A" 0).addParticipant [] "s1" "u" 0).2

def c9AfterLeave : Room × PMap :=
  (Room.removeParticipant c9AfterJoin.1 c9AfterJoin.2 "s1").2

def c9Rejoined : Room :=
  (Room.addParticipant c9AfterLeave.1 c9AfterLeave.2 "s2" "u" 1).2.1

/-- C9 counterexample: the biconditional between an unset active flag and an
empty member set fails in both directions on reachable rooms: a freshly
constructed Room has no members yet an active flag of true, and a Room that
emptied out (flag forced false) and was then rejoined has a member yet an
active flag of false. -/
theorem claim9_counterexample :
    ((Room.new "B" 0).participants = [] ∧ (Room.new "B" 0).isActive = true) ∧
    (c9Rejoined.participants ≠ [] ∧ c9Rejoined.isActive = false) := by
  decide

/-- C9 amended: the capacity half of the invariant holds (membership never
exceeds maxParticipants, which every constructed Room fixes at 50), and the
active flag is related to emptiness only one way: a removal that leaves the
member set empty forces the flag to false, while neither addParticipant nor
addMessage ever touches the flag and a fresh Room starts with an empty
member set and the flag true. The biconditional of the original claim does
not hold. -/
theorem claim9_invariants (r : Room) (ps : PMap) (code sid email msg sender : String)
    (now mid ts : Nat) :
    (r.participants.length ≤ r.maxParticipants →
      (r.addParticipant ps sid email now).2.1.participants.length
        ≤ r.maxParticipants) ∧
    ((r.removeParticipant ps sid).2.1.participants.length
        ≤ r.participants.length) ∧
    ((r.removeParticipant ps sid).2.1.participants.length = 0 →
      (r.removeParticipant ps sid).2.1.isActive = false) ∧
    ((r.addParticipant ps sid email now).2.1.isActive = r.isActive) ∧
    ((r.addMessage msg sender mid ts).1.isActive = r.isActive) ∧
    ((Room.new code now).isActive = true ∧ (Room.new code now).participants = [] ∧
      (Room.new code now).maxParticipants = 50) := by
  refine ⟨fun hle => ?_, ?_, fun hz => ?_,
          addParticipant_isActive r ps sid email now,
          addMessage_isActive r msg sender mid ts, rfl, rfl, rfl⟩
  · by_cases h : r.maxParticipants ≤ r.participants.length
    · simp [Room.addParticipant, h]
      omega
    · have := length_setAdd_le r.participants sid
      simp [Room.addParticipant, h]
      omega
  · exact length_setDelete_le _ _
  · have hz' : (setDelete r.participants sid).length = 0 := hz
    simp [Room.removeParticipant, hz']

theorem claim9_witness :
    (roomOne.participants.length ≤ roomOne.maxParticipants ∧
      (roomOne.addParticipant [] "b" "u" 0).2.1.participants.length
        ≤ roomOne.maxParticipants) ∧
    ((roomOne.removeParticipant [] "a").2.1.participants.length = 0 ∧
      (roomOne.removeParticipant [] "a").2.1.isActive = false) :=
  ⟨⟨by decide, (claim9_invariants roomOne [] "C" "b" "u" "m" "u" 0 0 0).1 (by decide)⟩,
   ⟨by decide, (claim9_invariants roomOne [] "C" "a" "u" "m" "u" 0 0 0).2.2.1 (by decide)⟩⟩

theorem onDisconnect_socketToUser (st : ServerState) (sid : String) :
    (onDisconnect st sid).socketToUser = st.socketToUser := by
  unfold onDisconnect
  dsimp only
  split
  · split <;> rfl
  · rfl

theorem onDisconnect_userToSocket (st : ServerState) (sid : String) :
    (onDisconnect st sid).userToSocket = st.userToSocket := by
  unfold onDisconnect
  dsimp only
  split
  · split <;> rfl
  · rfl

theorem joinRoomCore_socketToUser (st : ServerState) (sid rc u : String)
    (now : Nat) :
    (joinRoomCore st sid rc u now).1.socketToUser
      = mapSet st.socketToUser sid ⟨u, rc⟩ := by
  unfold joinRoomCore
  dsimp only
  split <;> rfl

theorem joinRoomCore_userToSocket (st : ServerState) (sid rc u : String)
    (now : Nat) :
    (joinRoomCore st sid rc u now).1.userToSocket
      = mapSet st.userToSocket u sid := by
  unfold joinRoomCore
  dsimp only
  split <;> rfl

theorem evictExisting_of_live (st : ServerState) (sid u old : String)
    (h1 : mapGet st.userToSocket u = some old) (h2 : old ≠ sid)
    (h3 : old ∈ st.liveSockets) :
    evictExisting st sid u =
      ({ onDisconnect st old with
          socketToUser := mapDelete (onDisconnect st old).socketToUser old
          userToSocket := mapDelete (onDisconnect st old).userToSocket u },
       [Action.disconnectSocket old]) := by
  unfold evictExisting
  rw [h1]
  simp [h2, h3]

/-- C2: when a join-room request arrives for an identity already bound to a
different, live socket, the eviction step emits the forced disconnect of
that prior socket and erases both of its mapping entries, and only then does
the handler install the new binding; after the handler the identity maps to
the new socket alone, the new socket maps back to the identity and room, the
prior socket has no mapping entry, and at most one socket is bound to the
identity. -/
theorem claim2_single_binding (st : ServerState) (sid rc u old : String)
    (now : Nat)
    (h1 : mapGet st.userToSocket u = some old) (h2 : old ≠ sid)
    (h3 : old ∈ st.liveSockets) :
    (evictExisting st sid u).2 = [Action.disconnectSocket old] ∧
    mapGet (evictExisting st sid u).1.userToSocket u = none ∧
    mapGet (evictExisting st sid u).1.socketToUser old = none ∧
    Action.disconnectSocket old ∈ (joinRoom st sid rc u now).2 ∧
    mapGet (joinRoom st sid rc u now).1.userToSocket u = some sid ∧
    mapGet (joinRoom st sid rc u now).1.socketToUser sid
      = some { userEmail := u, roomCode := rc } ∧
    mapGet (joinRoom st sid rc u now).1.socketToUser old = none ∧
    (∀ s, mapGet (joinRoom st sid rc u now).1.userToSocket u = some s →
      s = sid) := by
  have hev := evictExisting_of_live st sid u old h1 h2 h3
  have hjoin : joinRoom st sid rc u now
      = (let core := joinRoomCore (evictExisting st sid u).1 sid rc u now
         (core.1, (evictExisting st sid u).2 ++ core.2)) := rfl
  refine ⟨by rw [hev], ?_, ?_, ?_, ?_, ?_, ?_, ?_⟩
  · rw [hev]
    exact mapGet_mapDelete_self _ _
  · rw [hev]
    exact mapGet_mapDelete_self _ _
  · rw [hjoin]
    simp only [List.mem_append]
    left
    rw [hev]
    exact List.mem_singleton.mpr rfl
  · rw [hjoin]
    simp only
    rw [joinRoomCore_userToSocket]
    exact mapGet_mapSet_self _ _ _
  · rw [hjoin]
    simp only
    rw [joinRoomCore_socketToUser]
    exact mapGet_mapSet_self _ _ _
  · rw [hjoin]
    simp only
    rw [joinRoomCore_socketToUser]
    rw [mapGet_mapSet_ne _ _ _ _ (Ne.symm h2)]
    rw [hev]
    exact mapGet_mapDelete_self _ _
  · intro s hs
    rw [hjoin] at hs
    simp only at hs
    rw [joinRoomCore_userToSocket, mapGet_mapSet_self] at hs
    exact (Option.some.injEq _ _).mp hs.symm

/-- Concrete server state with identity u bound to a live socket s1. -/
def boundState : ServerState :=
  { rooms := (createRoom [] "RC" 0).1
    participants := [("s1", ⟨"u", "RC", 0⟩)]
    socketToUser := [("s1", ⟨"u", "RC"⟩)]
    userToSocket := [("u", "s1")]
    userLastActivity := [("u", 0)]
    liveSockets := ["s1", "s2"]
    channels := [("RC", ["s1"])]
    timers := [] }

theorem claim2_witness :
    (mapGet boundState.userToSocket "u" = some "s1" ∧
      "s1" ∈ boundState.liveSockets) ∧
    (evictExisting boundState "s2" "u").2 = [Action.disconnectSocket "s1"] ∧
    mapGet (joinRoom boundState "s2" "RC" "u" 7).1.userToSocket "u"
      = some "s2" ∧
    mapGet (joinRoom boundState "s2" "RC" "u" 7).1.socketToUser "s1" = none :=
  ⟨⟨by decide, by decide⟩,
   (claim2_single_binding boundState "s2" "RC" "u" "s1" 7
      (by decide) (by decide) (by decide)).1,
   (claim2_single_binding boundState "s2" "RC" "u" "s1" 7
      (by decide) (by decide) (by decide)).2.2.2.2.1,
   (claim2_single_binding boundState "s2" "RC" "u" "s1" 7
      (by decide) (by decide) (by decide)).2.2.2.2.2.2.1⟩

/-- C4: when the grace-period continuation fires and the identity still
resolves to the original socket id, removal is finalized in full: the member
is removed from the room (and the room marked inactive if now empty), the
user-left event is broadcast to the room channel, the updated
participants-update roster is broadcast, and the socketToUser, userToSocket
and userLastActivity entries are all erased. -/
theorem claim4_grace_finalize (st : ServerState) (sid u rc : String)
    (room : Room)
    (h1 : mapGet st.userToSocket u = some sid)
    (h2 : mapGet st.rooms (jsToUpper rc) = some room) :
    fireDisconnectTimer st ⟨sid, u, rc⟩ =
      ({ st with
          timers := removeTimer st.timers ⟨sid, u, rc⟩
          rooms := mapSet st.rooms (jsToUpper rc)
            (Room.removeParticipant room st.participants sid).2.1
          participants := (Room.removeParticipant room st.participants sid).2.2
          socketToUser := mapDelete st.socketToUser sid
          userToSocket := mapDelete st.userToSocket u
          userLastActivity := mapDelete st.userLastActivity u },
       [Action.emitToChannelExcept rc sid (.userLeft sid u),
        Action.emitToRoom rc
          (.participantsUpdate (Room.removeParticipant room st.participants sid).1
            (rosterOf (Room.removeParticipant room st.participants sid).2.1
              (Room.removeParticipant room st.participants sid).2.2))]) ∧
    sid ∉ (Room.removeParticipant room st.participants sid).2.1.participants ∧
    mapGet (fireDisconnectTimer st ⟨sid, u, rc⟩).1.socketToUser sid = none ∧
    mapGet (fireDisconnectTimer st ⟨sid, u, rc⟩).1.userToSocket u = none ∧
    mapGet (fireDisconnectTimer st ⟨sid, u, rc⟩).1.userLastActivity u = none := by
  have hfire : fireDisconnectTimer st ⟨sid, u, rc⟩ =
      ({ st with
          timers := removeTimer st.timers ⟨sid, u, rc⟩
          rooms := mapSet st.rooms (jsToUpper rc)
            (Room.removeParticipant room st.participants sid).2.1
          participants := (Room.removeParticipant room st.participants sid).2.2
          socketToUser := mapDelete st.socketToUser sid
          userToSocket := mapDelete st.userToSocket u
          userLastActivity := mapDelete st.userLastActivity u },
       [Action.emitToChannelExcept rc sid (.userLeft sid u),
        Action.emitToRoom rc
          (.participantsUpdate (Room.removeParticipant room st.participants sid).1
            (rosterOf (Room.removeParticipant room st.participants sid).2.1
              (Room.removeParticipant room st.participants sid).2.2))]) := by
    unfold fireDisconnectTimer
    rw [if_pos (by exact h1)]
    simp only [h2]
  refine ⟨hfire, setDelete_not_mem _ _, ?_, ?_, ?_⟩ <;> rw [hfire] <;>
    exact mapGet_mapDelete_self _ _

/-- Concrete state just after the disconnect of s1: the binding is still in
place and the grace-period continuation is pending. -/
def pendingState : ServerState :=
  { boundState with
      liveSockets := ["s2"]
      channels := [("RC", [])]
      rooms := [("RC", { Room.new "RC" 0 with participants := ["s1"] })]
      timers := [⟨"s1", "u", "RC"⟩] }

theorem claim4_witness :
    (mapGet pendingState.userToSocket "u" = some "s1" ∧
      mapGet pendingState.rooms (jsToUpper "RC")
        = some { Room.new "RC" 0 with participants := ["s1"] }) ∧
    (fireDisconnectTimer pendingState ⟨"s1", "u", "RC"⟩).2
      = [Action.emitToChannelExcept "RC" "s1" (.userLeft "s1" "u"),
         Action.emitToRoom "RC" (.participantsUpdate 0 [])] ∧
    mapGet (fireDisconnectTimer pendingState ⟨"s1", "u", "RC"⟩).1.userToSocket "u"
      = none := by
  refine ⟨⟨by decide, by decide⟩, ?_, ?_⟩
  · have h := (claim4_grace_finalize pendingState "s1" "u" "RC"
      { Room.new "RC" 0 with participants := ["s1"] } (by decide) (by decide)).1
    rw [h]
    decide
  · exact (claim4_grace_finalize pendingState "s1" "u" "RC"
      { Room.new "RC" 0 with participants := ["s1"] } (by decide) (by decide)).2.2.2.1

/-! ## The disconnect-and-rebind scenario

Socket s1 joins room RC as identity u, disconnects (scheduling the
grace-period continuation), and u rebinds with fresh socket s2 two seconds
later, inside the 5-second grace window; the continuation then fires. -/

def c3Start : ServerState :=
  { rooms := [], participants := [], socketToUser := [], userToSocket := [],
    userLastActivity := [], liveSockets := ["s1"], channels := [], timers := [] }

def c3AfterJoin : ServerState := (joinRoom c3Start "s1" "RC" "u" 0).1

def c3AfterDrop : ServerState := onDisconnect c3AfterJoin "s1"

def c3BeforeRejoin : ServerState :=
  { c3AfterDrop with liveSockets := setAdd c3AfterDrop.liveSockets "s2" }

def c3Rejoin : ServerState × List Action :=
  joinRoom c3BeforeRejoin "s2" "RC" "u" 2000

def c3Fire : ServerState × List Action :=
  fireDisconnectTimer c3Rejoin.1 ⟨"s1", "u", "RC"⟩

/-- C3 counterexample: in the disconnect-and-rebind scenario the grace
continuation was scheduled and, on firing, emits nothing (so no user-left
and no decrementing participants-update, as the claim says) — but the final
participants-update, the one broadcast at the rejoin, carries a roster that
lists identity u twice, under both the stale socket id s1 (never removed
from the room) and the new socket id s2, refuting the clause that the final
roster lists the identity exactly once. -/
theorem claim3_counterexample :
    c3AfterDrop.timers = [⟨"s1", "u", "RC"⟩] ∧
    c3Fire.2 = [] ∧
    Action.emitToRoom "RC"
        (.participantsUpdate 2 [⟨"s1", "u"⟩, ⟨"s2", "u"⟩]) ∈ c3Rejoin.2 ∧
    (([⟨"s1", "u"⟩, ⟨"s2", "u"⟩] : List PartInfo).filter
        (fun p => p.userEmail = "u")).length ≠ 1 := by
  decide

/-- C3 amended: when the identity rebinds to a different socket before the
grace continuation fires, the continuation is a complete no-op on the
observable state and emits nothing — no user-left and no
membership-count-decrementing participants-update for the disconnect; the
final participants-update roster, however, lists the identity once per
bound handle, that is twice: under the stale handle, which is never removed
from the room, and under the new one, as the concrete scenario shows. -/
theorem claim3_grace_rebind (st : ServerState) (s1 s2 rc u : String)
    (now : Nat) (t : TimerRec)
    (h1 : s2 ≠ s1) (h2 : t.sid = s1) (h3 : t.userEmail = u) :
    (fireDisconnectTimer (joinRoom st s2 rc u now).1 t
      = ({ (joinRoom st s2 rc u now).1 with
            timers := removeTimer (joinRoom st s2 rc u now).1.timers t }, [])) ∧
    (Action.emitToRoom "RC"
        (.participantsUpdate 2 [⟨"s1", "u"⟩, ⟨"s2", "u"⟩]) ∈ c3Rejoin.2 ∧
      c3Fire.2 = []) := by
  have hu : mapGet (joinRoom st s2 rc u now).1.userToSocket u = some s2 := by
    have hj : (joinRoom st s2 rc u now).1
        = (joinRoomCore (evictExisting st s2 u).1 s2 rc u now).1 := rfl
    rw [hj, joinRoomCore_userToSocket]
    exact mapGet_mapSet_self _ _ _
  refine ⟨?_, by decide, by decide⟩
  unfold fireDisconnectTimer
  dsimp only
  rw [h3, h2, hu]
  rw [if_neg (by simp [h1])]

theorem claim3_witness :
    ("s2" : String) ≠ "s1" ∧
    fireDisconnectTimer (joinRoom c3BeforeRejoin "s2" "RC" "u" 2000).1
        ⟨"s1", "u", "RC"⟩
      = ({ (joinRoom c3BeforeRejoin "s2" "RC" "u" 2000).1 with
            timers := removeTimer
              (joinRoom c3BeforeRejoin "s2" "RC" "u" 2000).1.timers
              ⟨"s1", "u", "RC"⟩ }, []) :=
  ⟨by decide,
   (claim3_grace_rebind c3BeforeRejoin "s1" "s2" "RC" "u" 2000
      ⟨"s1", "u", "RC"⟩ (by decide) rfl rfl).1⟩

theorem applyROp_preserves_active {ms : ModelState} {key : String} {r : Room}
    (op : ROp) (hr : mapGet ms.rooms key = some r) (ha : r.isActive = true)
    (hop : op.removesFrom key = false) :
    ∃ r2, mapGet (applyROp ms op).rooms key = some r2 ∧ r2.isActive = true := by
  cases op with
  | create code now =>
    simp only [applyROp, createRoom]
    cases hm : mapGet ms.rooms (jsToUpper code) with
    | some r' => exact ⟨r, hr, ha⟩
    | none =>
      have hk : jsToUpper code ≠ key := by
        intro hcon
        rw [hcon, hr] at hm
        cases hm
      refine ⟨r, ?_, ha⟩
      dsimp only
      rw [mapGet_mapSet_ne _ _ _ _ hk]
      exact hr
  | addP code sid email now =>
    simp only [applyROp, getRoom]
    cases hm : mapGet ms.rooms (jsToUpper code) with
    | none => exact ⟨r, hr, ha⟩
    | some room =>
      dsimp only
      cases hadd : (Room.addParticipant room ms.participants sid email now).1 with
      | error e => exact ⟨r, hr, ha⟩
      | ok b =>
        by_cases hk : jsToUpper code = key
        · subst hk
          have hroom : room = r := by
            rw [hm] at hr
            exact (Option.some.injEq _ _).mp hr
          refine ⟨(Room.addParticipant room ms.participants sid email now).2.1,
            ?_, ?_⟩
          · exact mapGet_mapSet_self _ _ _
          · rw [addParticipant_isActive, hroom]
            exact ha
        · refine ⟨r, ?_, ha⟩
          rw [mapGet_mapSet_ne _ _ _ _ hk]
          exact hr
  | removeP code sid =>
    have hk : jsToUpper code ≠ key := by
      have := hop
      simp only [ROp.removesFrom, decide_eq_false_iff_not] at this
      exact this
    simp only [applyROp, getRoom]
    cases hm : mapGet ms.rooms (jsToUpper code) with
    | none => exact ⟨r, hr, ha⟩
    | some room =>
      refine ⟨r, ?_, ha⟩
      dsimp only
      rw [mapGet_mapSet_ne _ _ _ _ hk]
      exact hr
  | addMsg code msg sender mid ts =>
    simp only [applyROp, getRoom]
    cases hm : mapGet ms.rooms (jsToUpper code) with
    | none => exact ⟨r, hr, ha⟩
    | some room =>
      by_cases hk : jsToUpper code = key
      · subst hk
        have hroom : room = r := by
          rw [hm] at hr
          exact (Option.some.injEq _ _).mp hr
        refine ⟨(Room.addMessage room msg sender mid ts).1, ?_, ?_⟩
        · exact mapGet_mapSet_self _ _ _
        · rw [addMessage_isActive, hroom]
          exact ha
      · refine ⟨r, ?_, ha⟩
        dsimp only
        rw [mapGet_mapSet_ne _ _ _ _ hk]
        exact hr
  | cleanup =>
    refine ⟨r, ?_, ha⟩
    simp only [applyROp, cleanupEmptyRooms]
    apply mapGet_filter hr
    simp [ha]

theorem applyROps_preserves_active (key : String) (ops : List ROp) :
    ∀ (ms : ModelState) (r : Room), mapGet ms.rooms key = some r →
    r.isActive = true → (∀ op ∈ ops, op.removesFrom key = false) →
    ∃ r2, mapGet (applyROps ms ops).rooms key = some r2 ∧
      r2.isActive = true := by
  induction ops with
  | nil => exact fun ms r hr ha _ => ⟨r, hr, ha⟩
  | cons op ops ih =>
    intro ms r hr ha hops
    obtain ⟨r1, hr1, ha1⟩ :=
      applyROp_preserves_active op hr ha (hops op (List.mem_cons_self _ _))
    exact ih (applyROp ms op) r1 hr1 ha1
      (fun o ho => hops o (List.mem_cons_of_mem _ ho))

/-- C10: the janitor sweep deletes a room only when its member set is empty
and its active flag is false; a freshly created room is registered with the
flag true; and a room that is registered active stays registered and active
across any sequence of registry operations that never performs a
removeParticipant on it — sweeps, creations, joins and messages included —
so a created room from which no participant was ever removed is never
deleted by any sweep, zero members notwithstanding. -/
theorem claim10_janitor_spares_active (ms : ModelState) (key : String)
    (r : Room) (ops : List ROp)
    (hr : mapGet ms.rooms key = some r) (ha : r.isActive = true)
    (hops : ∀ op ∈ ops, op.removesFrom key = false) :
    (∀ (rs : RoomsMap) (k : String) (r' : Room), mapGet rs k = some r' →
      ¬(r'.participants = [] ∧ r'.isActive = false) →
      mapGet (cleanupEmptyRooms rs) k = some r') ∧
    (∀ (rs : RoomsMap) (c : String) (n : Nat), mapGet rs (jsToUpper c) = none →
      (createRoom rs c n).2.isActive = true ∧
      mapGet (createRoom rs c n).1 (jsToUpper c) = some (createRoom rs c n).2) ∧
    (∃ r2, mapGet (applyROps ms ops).rooms key = some r2 ∧
      r2.isActive = true) := by
  refine ⟨?_, ?_, applyROps_preserves_active key ops ms r hr ha hops⟩
  · intro rs k r' hg hcond
    apply mapGet_filter hg
    by_cases he : r'.participants.length = 0
    · have hact : ¬ r'.isActive = false := fun hf =>
        hcond ⟨List.length_eq_zero.mp he, hf⟩
      simp [he, hact]
    · simp [he]
  · intro rs c n hnone
    constructor
    · simp [createRoom, hnone, Room.new]
    · simp [createRoom, hnone, mapGet_mapSet_self]

/-- Concrete registry holding one freshly created room nobody ever joined,
swept twice around an unrelated message operation. -/
def janitorState : ModelState :=
  { rooms := (createRoom [] "abc" 0).1, participants := [] }

def janitorOps : List ROp :=
  [ROp.cleanup, ROp.addMsg "abc" "hi" "u" 1 2, ROp.cleanup]

theorem claim10_witness :
    (mapGet janitorState.rooms "ABC" = some (Room.new "ABC" 0) ∧
      (Room.new "ABC" 0).isActive = true ∧
      ∀ op ∈ janitorOps, op.removesFrom "ABC" = false) ∧
    (∃ r2, mapGet (applyROps janitorState janitorOps).rooms "ABC" = some r2 ∧
      r2.isActive = true) :=
  ⟨⟨by decide, by decide, by decide⟩,
   (claim10_janitor_spares_active janitorState "ABC" (Room.new "ABC" 0)
      janitorOps (by decide) (by decide) (by decide)).2.2⟩

end Fitsemeet
